import Mathlib

/-!
Shallow embedding of the procedural music engine (`AudioEngine` and its data
model) from the repository source, together with theorems settling the
specification claims.

Conventions of the embedding:
- JavaScript numbers used in the discrete control path (tempo, complexity,
  clock times, pattern probabilities) are modelled as `ℚ`; the transcendental
  frequency computations (`Math.log2`, `Math.pow`, `Math.sin`) use `ℝ`.
- JavaScript `%` on integers is truncated remainder, modelled by `Int.tmod`;
  `Math.floor(a / b)` on integers is modelled by `⌊(a : ℚ) / b⌋`.
- `Math.random()` is modelled as a stream `rng : ℕ → ℚ` of draws in `[0, 1)`,
  consumed in exactly the order the source calls `Math.random()`; the stream
  index is threaded explicitly.
- Web Audio nodes are modelled by the parameter values the engine writes to
  them (`setTargetAtTime` is modelled as setting the target value; the
  smoothing time constants have no observable effect on any claim).  Nullable
  node references are `Option` fields.
- Per-voice synthesis calls (`playKick`, `playBass`, ...) are modelled as
  emitted events carrying exactly the arguments of the call; the internal
  envelope ramps of a voice are not observable by any claim.
-/

namespace Sound

/-- The music style tag (`MusicStyle` in the source types). -/
inductive MusicStyle where
  | techno
  | ambient
  | industrial
  | house
  | glitch
  | symphony
  | easy_listening
deriving DecidableEq

/-- Oscillator waveform kinds (`synthType` in `SonicParameters`). -/
inductive SynthType where
  | sawtooth
  | square
  | sine
  | triangle
deriving DecidableEq

/-- The mood parameter record (`SonicParameters` in the source types). -/
structure SonicParameters where
  bpm : ℚ
  complexity : ℚ
  darkness : ℚ
  space : ℚ
  synthType : SynthType
  baseNoteFrequency : ℚ
  style : MusicStyle
deriving DecidableEq

/-- Hand gesture snapshot (`HandGestures` in the source types). -/
structure HandGestures where
  x : ℚ
  y : ℚ
  isPinching : Bool
  isFist : Bool
  isPalmOpen : Bool
  isVisible : Bool
deriving DecidableEq

/-- The `SCALES` table from the source (semitone offsets from the root). -/
def SCALES_minor : List ℤ := [0, 2, 3, 5, 7, 8, 10]

/-- Major scale from the `SCALES` table. -/
def SCALES_major : List ℤ := [0, 2, 4, 5, 7, 9, 11]

/-- Phrygian scale from the `SCALES` table. -/
def SCALES_phrygian : List ℤ := [0, 1, 3, 5, 7, 8, 10]

/-- Dorian scale from the `SCALES` table. -/
def SCALES_dorian : List ℤ := [0, 2, 3, 5, 7, 9, 10]

/-- Pentatonic scale from the `SCALES` table (present in the source table but
never selected by `generateComposition`). -/
def SCALES_pentatonic : List ℤ := [0, 3, 5, 7, 10]

/-- Harmonic minor scale from the `SCALES` table. -/
def SCALES_harmonic_minor : List ℤ := [0, 2, 3, 5, 7, 8, 11]

/-- Lydian scale from the `SCALES` table. -/
def SCALES_lydian : List ℤ := [0, 2, 4, 6, 7, 9, 11]

/-- One entry of the `CHORD_POOLS` table: progressions for the A section and
for the B section. -/
structure ChordPool where
  A : List (List ℤ)
  B : List (List ℤ)
deriving DecidableEq

/-- The `CHORD_POOLS` table from the source, per style. -/
def CHORD_POOLS : MusicStyle → ChordPool
  | .techno =>
      { A := [[0, 0, 0, 0], [0, -2, 0, -2], [0, 2, 0, -2]],
        B := [[-4, -4, 0, 0], [0, 3, 0, 5], [-2, 0, -2, 0]] }
  | .house =>
      { A := [[0, 3, 5, 3], [0, 2, 4, 2], [0, -2, 3, 5]],
        B := [[5, 3, 0, -2], [4, 6, 0, 2], [3, 0, 3, 5]] }
  | .ambient =>
      { A := [[0, 4, 2, 5], [0, -3, 2, 0], [0, 2, 4, 6]],
        B := [[5, 2, 6, 4], [4, 0, 5, 2]] }
  | .symphony =>
      { A := [[0, 5, 2, 6], [0, 4, 5, 1]],
        B := [[2, 6, 4, 5], [3, 0, 4, 1], [6, 4, 2, 5]] }
  | .easy_listening =>
      { A := [[0, 5, 3, 4], [0, 3, 0, 4]],
        B := [[3, 4, 0, 5], [5, 4, 3, 0]] }
  | .industrial =>
      { A := [[0, 6, 0, 6], [0, 1, 0, 1]],
        B := [[6, 1, 6, 0], [0, 0, 1, 1]] }
  | .glitch =>
      { A := [[0, 0, 0, 0]],
        B := [[0, -2, 2, -5]] }

/-- Scale selection, step 1 of `generateComposition`.  The source also uses
`CHORD_POOLS[styleKey] || CHORD_POOLS.techno`; the fallback is unreachable
because every style has a pool entry, so the pool lookup is the total function
`CHORD_POOLS` above. -/
def selectScale : MusicStyle → List ℤ
  | .house => SCALES_dorian
  | .techno => SCALES_phrygian
  | .easy_listening => SCALES_major
  | .symphony => SCALES_harmonic_minor
  | .ambient => SCALES_lydian
  | _ => SCALES_minor

/-- Form selection, step 2 of `generateComposition`. -/
def selectForm (complexity : ℚ) : List ℕ :=
  let isComplex := complexity > 0.6
  let isRepetitive := complexity < 0.3
  if isRepetitive then [0, 0, 0, 0]
  else if isComplex then [0, 0, 1, 0, 0, 1, 1, 0]
  else [0, 0, 1, 0]

/-- The `pickProg` helper inside `generateComposition`:
`arr[Math.floor(Math.random() * arr.length)]`, consuming one random draw.
Returns the picked progression and the advanced stream index. -/
def pickProg (rng : ℕ → ℚ) (k : ℕ) (arr : List (List ℤ)) : List ℤ × ℕ :=
  (arr.getD (⌊rng k * (arr.length : ℚ)⌋).toNat [], k + 1)

/-- One iteration of the melody-pattern loop, step 4 of `generateComposition`:
a weighted acceptance draw, then (on acceptance) a degree draw. -/
def melodyStep (style : MusicStyle) (complexity : ℚ) (rng : ℕ → ℚ)
    (i k : ℕ) : Option ℤ × ℕ :=
  let isStrongBeat := i % 4 = 0
  let chance := complexity * 0.4 + (if isStrongBeat then 0.3 else 0)
  if rng k < chance then
    let range : ℕ := if style = .techno then 5 else 12
    let degree : ℕ := (⌊rng (k + 1) * (range : ℚ)⌋).toNat % 7
    (some (degree : ℤ), k + 2)
  else (none, k + 1)

/-- One iteration of the bass-pattern loop, step 5 of `generateComposition`:
fixed techno/house placements, otherwise a 25% acceptance draw. -/
def bassStep (style : MusicStyle) (rng : ℕ → ℚ) (i k : ℕ) : Option ℤ × ℕ :=
  if style = .techno ∧ i % 2 ≠ 0 then (some 0, k)
  else if style = .house ∧ (i = 0 ∨ i = 10 ∨ i = 14) then (some 0, k)
  else if rng k < 0.25 then (some 0, k + 1)
  else (none, k + 1)

/-- Runs a pattern-slot generator `f` on indices `i, i+1, ...` for `n` steps,
threading the random-stream index, and collects the slots in order.  This
models the source loops that fill a `new Array(16).fill(null)` slot by slot. -/
def genList (f : ℕ → ℕ → Option ℤ × ℕ) : ℕ → ℕ → ℕ → List (Option ℤ) × ℕ
  | _, 0, k => ([], k)
  | i, n + 1, k =>
      let p := f i k
      let rest := genList f (i + 1) n p.2
      (p.1 :: rest.1, rest.2)

/-- The immutable result of `generateComposition`, as stored into the engine
fields it assigns. -/
structure Composition where
  scale : List ℤ
  form : List ℕ
  sections : List (List ℤ)
  currentChordSequence : List ℤ
  melodyPattern : List (Option ℤ)
  bassPattern : List (Option ℤ)

/-- The composer (`AudioEngine.generateComposition`), as a pure function of
the mood parameters and the random stream. -/
def generateComposition (p : SonicParameters) (rng : ℕ → ℚ) : Composition :=
  let pool := CHORD_POOLS p.style
  let scale := selectScale p.style
  let form := selectForm p.complexity
  let pa := pickProg rng 0 pool.A
  let pb := pickProg rng pa.2 pool.B
  let sections := [pa.1, pb.1]
  let melody := genList (melodyStep p.style p.complexity rng) 0 16 pb.2
  let bass0 := genList (bassStep p.style rng) 0 16 melody.2
  let bass := if p.style = .ambient then bass0.1 else bass0.1.set 0 (some 0)
  { scale := scale
    form := form
    sections := sections
    currentChordSequence := pa.1
    melodyPattern := melody.1
    bassPattern := bass }

/-- The audio context, modelled by its clock (`currentTime`).  The
`suspended`/`resume` interaction has no observable effect on the modelled
state and is not represented. -/
structure AudioCtx where
  currentTime : ℚ
deriving DecidableEq

/-- The lowpass filter node, modelled by the targets the engine writes to its
`frequency` and `Q` audio parameters. -/
structure FilterState where
  frequency : ℝ
  q : ℚ

/-- The mutable state of an `AudioEngine` instance: the class fields of the
source, with Web Audio nodes replaced by the parameter values the engine
writes to them.  `distortionNode` carries the distortion curve amount (the
44100-sample curve itself is a pure function of that amount and is observed
by no claim); `delayNode` carries the delay time, `reverbNode` the impulse
duration, and the gain nodes their gain targets. -/
structure EngineState where
  ctx : Option AudioCtx
  isPlaying : Bool
  nextNoteTime : ℚ
  current16thNote : ℕ
  globalBar : ℕ
  masterGain : Option ℚ
  filterNode : Option FilterState
  delayNode : Option ℚ
  delayFeedback : Option ℚ
  reverbNode : Option ℚ
  reverbGain : Option ℚ
  distortionNode : Option ℚ
  compressorNode : Option Unit
  params : SonicParameters
  currentGestures : HandGestures
  filterCutoff : ℚ
  resonance : ℚ
  scale : List ℤ
  form : List ℕ
  sections : List (List ℤ)
  activeSectionIdx : ℕ
  currentChordSequence : List ℤ
  melodyPattern : List (Option ℤ)
  bassPattern : List (Option ℤ)
  intensity : ℚ

/-- The engine constructor: field initializers of the class followed by the
`generateComposition()` call, whose assignments overwrite the composition
fields. -/
def mkEngine (p : SonicParameters) (rng : ℕ → ℚ) : EngineState :=
  let c := generateComposition p rng
  { ctx := none
    isPlaying := false
    nextNoteTime := 0
    current16thNote := 0
    globalBar := 0
    masterGain := none
    filterNode := none
    delayNode := none
    delayFeedback := none
    reverbNode := none
    reverbGain := none
    distortionNode := none
    compressorNode := none
    params := p
    currentGestures :=
      { x := 0.5, y := 0.5, isPinching := false, isFist := false,
        isPalmOpen := true, isVisible := false }
    filterCutoff := 1000
    resonance := 0
    scale := c.scale
    form := c.form
    sections := c.sections
    activeSectionIdx := 0
    currentChordSequence := c.currentChordSequence
    melodyPattern := c.melodyPattern
    bassPattern := c.bassPattern
    intensity := 0 }

/-- `AudioEngine.init`: builds the persistent signal graph once.  A fresh
`AudioContext` starts its clock at 0.  Node wiring (`connect` calls) has no
observable parameter state and is not represented. -/
def init (s : EngineState) : EngineState :=
  if s.ctx ≠ none then s
  else
    let distAmount0 := s.params.darkness * 400
    let distAmount1 :=
      if s.params.style = .industrial then distAmount0 * 2 else distAmount0
    let distAmount :=
      if s.params.style = .ambient ∨ s.params.style = .easy_listening ∨
          s.params.style = .symphony then 0 else distAmount1
    let beatTime := 60 / s.params.bpm
    let delayTime :=
      if s.params.style = .symphony then beatTime / 2 else beatTime * 0.75
    let reverbSize : ℚ :=
      if s.params.style = .techno then 2.0
      else if s.params.style = .ambient then 8.0
      else if s.params.style = .symphony then 5.0
      else 3.0
    { s with
      ctx := some { currentTime := 0 }
      masterGain := some 0.8
      compressorNode := some ()
      filterNode := some { frequency := (s.filterCutoff : ℝ), q := s.resonance }
      distortionNode := some distAmount
      delayNode := some delayTime
      delayFeedback := some 0.3
      reverbNode := some reverbSize
      reverbGain := some 0.4 }

/-- The engine clock as read at `this.ctx!.currentTime` (the source only reads
it at points where `ctx` is non-null). -/
def ctxTime (s : EngineState) : ℚ :=
  match s.ctx with
  | some c => c.currentTime
  | none => 0

/-- The intensity formula applied on each bar boundary in `nextNote`:
`Math.min(1.0, globalBar / 64)`. -/
def intensityOf (bar : ℕ) : ℚ :=
  min 1 ((bar : ℚ) / 64)

/-- `AudioEngine.nextNote`: advance the transport by one 16th note; on a bar
wrap, recompute the active section from the form and the intensity from the
bar count. -/
def nextNote (s : EngineState) : EngineState :=
  let secondsPerBeat : ℚ := 60 / s.params.bpm
  let s1 := { s with
    nextNoteTime := s.nextNoteTime + 0.25 * secondsPerBeat
    current16thNote := s.current16thNote + 1 }
  if s1.current16thNote = 16 then
    let bar := s1.globalBar + 1
    let formLength := s1.form.length
    let sectionIndex := (bar / 4) % formLength
    let active := s1.form.getD sectionIndex 0
    { s1 with
      current16thNote := 0
      globalBar := bar
      activeSectionIdx := active
      currentChordSequence := s1.sections.getD active []
      intensity := intensityOf bar }
  else s1

/-- The fixed look-ahead window (`scheduleAheadTime`, seconds). -/
def scheduleAheadTime : ℚ := 0.1

/-- The timer poll interval (`lookahead`, milliseconds).  The timer re-arm
itself is asynchronous and not part of the synchronous state change. -/
def lookahead : ℚ := 25.0

/-- `AudioEngine.getFreq`: map a scale degree (possibly negative or beyond one
octave) to a frequency.  JavaScript `%` is `Int.tmod`;
`Math.floor(scaleDegree / scaleLen)` is `⌊(scaleDegree : ℚ) / scaleLen⌋`;
`Math.log2`/`Math.pow` are the real `logb`/`rpow`. -/
noncomputable def getFreq (scale : List ℤ) (baseNoteFrequency : ℚ)
    (scaleDegree : ℤ) (octaveOffset : ℤ) : ℝ :=
  let scaleLen : ℤ := (scale.length : ℤ)
  let normDegree : ℤ := (scaleDegree.tmod scaleLen + scaleLen).tmod scaleLen
  let octaveShift : ℤ := ⌊(scaleDegree : ℚ) / (scaleLen : ℚ)⌋
  let semitones : ℤ := scale.getD normDegree.toNat 0 + octaveShift * 12 + octaveOffset * 12
  let baseMidi : ℝ := 69 + 12 * Real.logb 2 ((baseNoteFrequency : ℝ) / 440)
  let targetMidi : ℝ := baseMidi + (semitones : ℝ)
  440 * (2 : ℝ) ^ ((targetMidi - 69) / 12)

/-- Melodic voice kinds passed to `playSynth`. -/
inductive SynthVoice where
  | lead
  | pad
  | pluck
  | strings
  | woodwind
  | epiano
deriving DecidableEq

/-- One observable action of `scheduleNote`: either the deferred UI step
callback or a call into an instrument voice with its arguments. -/
inductive AudioEvent where
  | stepCallback (step : ℕ)
  | kick (time vol decay : ℚ)
  | timpani (time vol : ℚ)
  | hihat (time vol decay : ℚ)
  | chord (time : ℚ) (isBuilding : Bool) (octaveShift : ℕ)
  | bass (time : ℚ) (freq : ℝ)
  | synth (time : ℚ) (freq : ℝ) (duration : ℚ) (voice : SynthVoice)

/-- `playHiHat`: a filtered-noise hit with the given volume and decay. -/
def playHiHat (time vol decay : ℚ) : List AudioEvent :=
  [AudioEvent.hihat time vol decay]

/-- `playNoiseSnare` delegates to `playHiHat` with a 0.15 s decay. -/
def playNoiseSnare (time vol : ℚ) : List AudioEvent :=
  playHiHat time vol 0.15

/-- `playShaker` delegates to `playHiHat` at half volume, 0.05 s decay. -/
def playShaker (time vol : ℚ) : List AudioEvent :=
  playHiHat time (vol * 0.5) 0.05

/-- The breakdown rule computed at the top of the rhythm section of
`scheduleNote`: section B with complexity above 0.5 suppresses drums and
bass. -/
def isBreakdown (s : EngineState) : Prop :=
  s.activeSectionIdx = 1 ∧ s.params.complexity > 0.5

instance (s : EngineState) : Decidable (isBreakdown s) := by
  unfold isBreakdown
  infer_instance

/-- Kick events of `scheduleNote` for one step. -/
def kickEvents (s : EngineState) (beat : ℕ) (time : ℚ) : List AudioEvent :=
  if beat % 4 = 0 ∧ s.currentGestures.isFist = false ∧ ¬ isBreakdown s then
    if s.params.style = .easy_listening ∨ s.params.style = .ambient then
      [AudioEvent.kick time 0.6 0.3]
    else if s.params.style = .symphony then
      if beat = 0 then [AudioEvent.timpani time 0.8] else []
    else
      [AudioEvent.kick time 1.0 0.5]
  else []

/-- Snare/clap events of `scheduleNote` for one step. -/
def snareEvents (s : EngineState) (beat : ℕ) (time : ℚ) : List AudioEvent :=
  if (beat = 4 ∨ beat = 12) ∧ s.currentGestures.isFist = false ∧ ¬ isBreakdown s then
    if s.params.style = .techno ∨ s.params.style = .industrial then
      playNoiseSnare time 0.5
    else if s.params.style = .easy_listening then
      playShaker time 0.2
    else []
  else []

/-- Hi-hat events of `scheduleNote` for one step: odd (16th) steps are gated
in once intensity exceeds 0.5 or while pinching. -/
def hatEvents (s : EngineState) (beat : ℕ) (time : ℚ) : List AudioEvent :=
  let is16th := beat % 2 ≠ 0
  if (¬ is16th ∨ s.intensity > 0.5 ∨ s.currentGestures.isPinching = true) ∧
      s.currentGestures.isFist = false then
    if s.params.style ≠ .symphony then
      let vol : ℚ :=
        if s.currentGestures.isPinching then 0.6
        else if beat % 2 ≠ 0 then 0.15 else 0.3
      playHiHat time vol (if s.currentGestures.isPinching then 0.02 else 0.05)
    else []
  else []

/-- Chord events of `scheduleNote`: on step 0, `playChord` is invoked with the
fist flag and the section-B octave lift.  The individual pad voices inside
`playChord` draw random velocities and are observed by no claim, so the call
itself is the recorded event. -/
def chordEvents (s : EngineState) (beat : ℕ) (time : ℚ) : List AudioEvent :=
  if beat = 0 then
    [AudioEvent.chord time s.currentGestures.isFist
      (if s.activeSectionIdx = 1 then 1 else 0)]
  else []

/-- Bass events of `scheduleNote`: a non-empty `bassPattern` slot holding 0 is
reinterpreted as the current chord root before frequency resolution. -/
noncomputable def bassEvents (s : EngineState) (beat : ℕ) (time : ℚ) : List AudioEvent :=
  if s.currentGestures.isFist = false ∧ ¬ isBreakdown s then
    match s.bassPattern.getD beat none with
    | none => []
    | some bassNote0 =>
        let chordRoot := s.currentChordSequence.getD (s.globalBar % 4) 0
        let bassNote := if bassNote0 = 0 then chordRoot else bassNote0
        [AudioEvent.bass time (getFreq s.scale s.params.baseNoteFrequency bassNote 0)]
  else []

/-- Lead/arpeggio events of `scheduleNote`: arpeggiate in techno/symphony once
intensity exceeds 0.3, otherwise realize the melody pattern. -/
noncomputable def leadEvents (s : EngineState) (beat : ℕ) (time : ℚ) : List AudioEvent :=
  let shouldArp := (s.params.style = .techno ∨ s.params.style = .symphony) ∧
    s.intensity > 0.3
  if shouldArp ∧ beat % 2 = 0 then
    let chordRoot := s.currentChordSequence.getD (s.globalBar % 4) 0
    let arpIntervals : List ℤ := [0, 2, 4, 6]
    let arpIdx := (beat / 2 + s.globalBar) % 4
    let freq := getFreq s.scale s.params.baseNoteFrequency
      (chordRoot + arpIntervals.getD arpIdx 0) 2
    let voice := if s.params.style = .symphony then SynthVoice.strings else SynthVoice.pluck
    if s.currentGestures.isFist = false then
      [AudioEvent.synth time freq 0.1 voice]
    else []
  else
    match s.melodyPattern.getD beat none with
    | none => []
    | some melodyNote =>
        let octave : ℤ := if s.currentGestures.isPinching then 2 else 1
        let freq := getFreq s.scale s.params.baseNoteFrequency melodyNote octave
        let voice :=
          if s.params.style = .symphony then SynthVoice.woodwind
          else if s.params.style = .easy_listening then SynthVoice.pluck
          else if s.params.style = .ambient then SynthVoice.pluck
          else SynthVoice.lead
        [AudioEvent.synth time freq 0.2 voice]

/-- `AudioEngine.scheduleNote`: the per-step note realization.  The source
mutates no engine field here (its only local is the bass degree), so the
embedding returns the list of emitted events; with no audio context it
returns immediately, emitting nothing.  The deferred UI callback is recorded
as an event when its delay is non-negative. -/
noncomputable def scheduleNote (s : EngineState) (beat : ℕ) (time : ℚ) : List AudioEvent :=
  match s.ctx with
  | none => []
  | some c =>
      let uiEvents :=
        if 0 ≤ (time - c.currentTime) * 1000 then
          [AudioEvent.stepCallback (beat + (s.globalBar % 4) * 16)]
        else []
      uiEvents ++ kickEvents s beat time ++ snareEvents s beat time ++
        hatEvents s beat time ++ chordEvents s beat time ++
        bassEvents s beat time ++ leadEvents s beat time

/-- The while loop of `AudioEngine.scheduler`: as long as the next note time
is within the look-ahead window of the audio clock, schedule the current step
and advance the transport.  `fuel` bounds the iterations of the model; every
claim uses runs where the loop exits by its condition. -/
noncomputable def schedulerLoop (now : ℚ) : ℕ → EngineState → EngineState × List AudioEvent
  | 0, s => (s, [])
  | fuel + 1, s =>
      if s.nextNoteTime < now + scheduleAheadTime then
        let evs := scheduleNote s s.current16thNote s.nextNoteTime
        let rest := schedulerLoop now fuel (nextNote s)
        (rest.1, evs ++ rest.2)
      else (s, [])

/-- `AudioEngine.scheduler`: guard on the context and the playing flag, then
run the look-ahead loop.  The `setTimeout` re-arm is asynchronous and outside
the synchronous state change. -/
noncomputable def scheduler (fuel : ℕ) (s : EngineState) : EngineState × List AudioEvent :=
  match s.ctx with
  | none => (s, [])
  | some c =>
      if s.isPlaying then schedulerLoop c.currentTime fuel s else (s, [])

/-- `AudioEngine.start`: build the graph if needed, then unconditionally set
the playing flag, reset both transport counters, set the next note time just
ahead of the clock, and invoke the scheduler. -/
noncomputable def start (fuel : ℕ) (s : EngineState) : EngineState × List AudioEvent :=
  let s0 := if s.ctx = none then init s else s
  let s1 := { s0 with
    isPlaying := true
    current16thNote := 0
    globalBar := 0
    nextNoteTime := ctxTime s0 + 0.1 }
  scheduler fuel s1

/-- `AudioEngine.stop`: clear the playing flag (the pending timer callback is
cancelled; in-flight voices are independent and unaffected). -/
def stop (s : EngineState) : EngineState :=
  { s with isPlaying := false }

/-- `AudioEngine.updateControlParams`: store the gesture snapshot, then, only
when the hand is visible, push filter / gain / feedback targets.  The
`masterGain!` assertion and the `reverbGain?.`/`delayFeedback?.` optional
chains are modelled by `Option.map`. -/
noncomputable def updateControlParams (s : EngineState) (g : HandGestures) : EngineState :=
  match s.ctx, s.filterNode, s.distortionNode with
  | some c, some _, some _ =>
      let s1 := { s with currentGestures := g }
      if g.isVisible = false then s1
      else
        let minFreq : ℝ := 100
        let maxFreq : ℝ := 12000
        let lfoMod : ℝ := Real.sin ((c.currentTime : ℝ) * 0.5) * 200 * (s.params.space : ℝ)
        let frequency : ℝ :=
          max minFreq (minFreq * (maxFreq / minFreq) ^ ((g.x : ℚ) : ℝ) + lfoMod)
        let filt1 : FilterState := { frequency := frequency, q := g.y * 15 }
        let s2 := { s1 with filterNode := some filt1 }
        let s3 :=
          if g.isFist then
            { s2 with
              masterGain := s2.masterGain.map (fun _ => 0.5)
              reverbGain := s2.reverbGain.map (fun _ => 0.8)
              delayFeedback := s2.delayFeedback.map (fun _ => 0.8) }
          else
            { s2 with
              masterGain := s2.masterGain.map (fun _ => 0.8)
              reverbGain := s2.reverbGain.map (fun _ => 0.4)
              delayFeedback := s2.delayFeedback.map (fun _ => 0.3) }
        if g.isPinching then
          { s3 with filterNode := some { filt1 with frequency := frequency * 1.5 } }
        else s3
  | _, _, _ => s

/-- The documented fallback parameter set returned when image analysis fails
(`analyzeImageForSound`'s catch branch). -/
def defaultParams : SonicParameters :=
  { bpm := 128, complexity := 0.5, darkness := 0.5, space := 0.5,
    synthType := .sawtooth, baseNoteFrequency := 55.0, style := .techno }

/-- A fixed random stream (every `Math.random()` call returns 1/2), used for
concrete instantiations. -/
def halfRng : ℕ → ℚ := fun _ => 1 / 2

/-- A freshly constructed engine: `new AudioEngine(defaultParams)`, before
`init`/`start` — the audio context is still null. -/
def freshEngine : EngineState := mkEngine defaultParams halfRng

/-- The fresh engine after `init()`: signal graph constructed, not playing. -/
def readyEngine : EngineState := init freshEngine

/-- The engine mid-playback: playing, with non-zero transport counters. -/
def runningEngine : EngineState :=
  { readyEngine with isPlaying := true, current16thNote := 7, globalBar := 5 }

/-- The engine playing at the last step of bar 63, one step before the bar
wrap onto bar 64. -/
def barWrapEngine : EngineState :=
  { readyEngine with isPlaying := true, current16thNote := 15, globalBar := 63 }

/-- The engine playing in bar 1 (chord root of bar 1 of the picked techno A
progression is -2, a non-zero root). -/
def playingEngine : EngineState :=
  { readyEngine with isPlaying := true, globalBar := 1 }

/-- A gesture frame with the hand not visible but the fist flag set. -/
def invisibleFist : HandGestures :=
  { x := 0.5, y := 0.5, isPinching := false, isFist := true,
    isPalmOpen := false, isVisible := false }

/-- Bridge between JavaScript truncated remainder and mathematical modulo:
the normalization `((a % b) + b) % b` used by `getFreq` computes `Int.emod`. -/
theorem tmod_normalize_eq_emod (a b : ℤ) (hb : 0 < b) :
    (a.tmod b + b).tmod b = a % b := by
  have hlt : a.tmod b < b := Int.tmod_lt_of_pos a hb
  have hgt : -b < a.tmod b := by
    rcases le_or_lt 0 a with h | h
    · have := Int.tmod_nonneg b h
      omega
    · have h1 : (-a).tmod b < b := Int.tmod_lt_of_pos (-a) hb
      have h2 : (-a).tmod b = -(a.tmod b) := by
        rw [Int.tmod_def, Int.tmod_def, Int.neg_tdiv]
        ring
      omega
  have houter : (a.tmod b + b).tmod b = (a.tmod b + b) % b :=
    Int.tmod_eq_emod (by omega) hb.le
  have h1 : (a.tmod b + b) % b = a.tmod b % b := by
    have h0 := Int.add_mul_emod_self_left (a.tmod b) b 1
    rw [mul_one] at h0
    exact h0
  have h2 : a % b = a.tmod b % b := by
    conv_lhs => rw [← Int.tmod_add_tdiv a b]
    exact Int.add_mul_emod_self_left _ b _
  rw [houter, h1, h2]

/-- The scheduler loop returns immediately once the next note time has left
the look-ahead window. -/
theorem schedulerLoop_exit (now : ℚ) (fuel : ℕ) (s : EngineState)
    (h : ¬ s.nextNoteTime < now + scheduleAheadTime) :
    schedulerLoop now fuel s = (s, []) := by
  cases fuel <;> simp [schedulerLoop, h]

/-- `genList` produces exactly `n` slots. -/
theorem genList_length (f : ℕ → ℕ → Option ℤ × ℕ) :
    ∀ (i n k : ℕ), (genList f i n k).1.length = n := by
  intro i n
  induction n generalizing i with
  | zero => intro k; simp [genList]
  | succ n ih => intro k; simp [genList, ih]

/-- Every slot `genList` produces comes from one call of the slot
generator. -/
theorem genList_all (f : ℕ → ℕ → Option ℤ × ℕ) (P : Option ℤ → Prop)
    (hf : ∀ i k, P (f i k).1) :
    ∀ (i n k : ℕ), ∀ v ∈ (genList f i n k).1, P v := by
  intro i n
  induction n generalizing i with
  | zero => intro k v hv; simp [genList] at hv
  | succ n ih =>
      intro k v hv
      simp only [genList, List.mem_cons] at hv
      rcases hv with rfl | hv
      · exact hf i k
      · exact ih (i + 1) _ v hv

/-- `pickProg` picks an element of a non-empty pool whenever the draw lies in
`[0, 1)`. -/
theorem pickProg_mem (rng : ℕ → ℚ) (k : ℕ) (arr : List (List ℤ))
    (h0 : 0 ≤ rng k) (h1 : rng k < 1) (hne : arr ≠ []) :
    (pickProg rng k arr).1 ∈ arr := by
  have hlen : 0 < arr.length := List.length_pos.mpr hne
  have hflt : ⌊rng k * (arr.length : ℚ)⌋ < (arr.length : ℤ) := by
    apply Int.floor_lt.mpr
    push_cast
    calc rng k * (arr.length : ℚ) < 1 * (arr.length : ℚ) := by
          apply mul_lt_mul_of_pos_right h1
          exact_mod_cast hlen
      _ = (arr.length : ℚ) := one_mul _
  have hfl0 : 0 ≤ ⌊rng k * (arr.length : ℚ)⌋ :=
    Int.floor_nonneg.mpr (mul_nonneg h0 (by positivity))
  have hidx : (⌊rng k * (arr.length : ℚ)⌋).toNat < arr.length := by omega
  unfold pickProg
  rw [List.getD_eq_getElem _ _ hidx]
  exact List.getElem_mem hidx

/-- Every style's chord pool has non-empty A and B progression lists. -/
theorem chordPools_nonempty (st : MusicStyle) :
    (CHORD_POOLS st).A ≠ [] ∧ (CHORD_POOLS st).B ≠ [] := by
  cases st <;> simp [CHORD_POOLS]

/-- Every entry of every selected form is 0 or 1. -/
theorem selectForm_entries (c : ℚ) : ∀ i ∈ selectForm c, i < 2 := by
  intro i hi
  simp only [selectForm] at hi
  split at hi
  · simp at hi
    omega
  · split at hi
    · simp at hi
      omega
    · simp at hi
      omega

/-- Every slot the bass-pattern generator emits is empty or holds degree 0. -/
theorem bassStep_zero_or_empty (st : MusicStyle) (rng : ℕ → ℚ) (i k : ℕ) :
    (bassStep st rng i k).1 = none ∨ (bassStep st rng i k).1 = some 0 := by
  unfold bassStep
  split
  · simp
  · split
    · simp
    · split <;> simp

/-- Every non-empty slot of a generated bass pattern holds degree 0. -/
theorem generated_bassPattern_slots (p : SonicParameters) (rng : ℕ → ℚ) :
    ∀ v ∈ (generateComposition p rng).bassPattern, v = none ∨ v = some 0 := by
  intro v hv
  have hv2 : (generateComposition p rng).bassPattern =
      (if p.style = .ambient then (genList (bassStep p.style rng) 0 16
          (genList (melodyStep p.style p.complexity rng) 0 16
            (pickProg rng (pickProg rng 0 (CHORD_POOLS p.style).A).2
              (CHORD_POOLS p.style).B).2).2).1
        else (genList (bassStep p.style rng) 0 16
          (genList (melodyStep p.style p.complexity rng) 0 16
            (pickProg rng (pickProg rng 0 (CHORD_POOLS p.style).A).2
              (CHORD_POOLS p.style).B).2).2).1.set 0 (some 0)) := rfl
  rw [hv2] at hv
  have hall := genList_all (bassStep p.style rng)
    (fun v => v = none ∨ v = some 0)
    (fun i k => bassStep_zero_or_empty p.style rng i k) 0 16
  split at hv
  · exact hall _ v hv
  · rcases List.mem_or_eq_of_mem_set hv with hv1 | rfl
    · exact hall _ v hv1
    · exact Or.inr rfl

/-- A bass event is never emitted by the kick section. -/
theorem bass_notin_kickEvents (s : EngineState) (beat : ℕ) (time t : ℚ) (f : ℝ) :
    AudioEvent.bass t f ∉ kickEvents s beat time := by
  unfold kickEvents
  split
  · split
    · simp
    · split
      · split <;> simp
      · simp
  · simp

/-- A bass event is never emitted by the snare section. -/
theorem bass_notin_snareEvents (s : EngineState) (beat : ℕ) (time t : ℚ) (f : ℝ) :
    AudioEvent.bass t f ∉ snareEvents s beat time := by
  unfold snareEvents playNoiseSnare playShaker playHiHat
  split
  · split
    · simp
    · split <;> simp
  · simp

/-- A bass event is never emitted by the hi-hat section. -/
theorem bass_notin_hatEvents (s : EngineState) (beat : ℕ) (time t : ℚ) (f : ℝ) :
    AudioEvent.bass t f ∉ hatEvents s beat time := by
  simp only [hatEvents, playHiHat]
  split
  · split <;> simp
  · simp

/-- A bass event is never emitted by the chord section. -/
theorem bass_notin_chordEvents (s : EngineState) (beat : ℕ) (time t : ℚ) (f : ℝ) :
    AudioEvent.bass t f ∉ chordEvents s beat time := by
  unfold chordEvents
  split <;> simp

/-- A bass event is never emitted by the lead/arpeggio section. -/
theorem bass_notin_leadEvents (s : EngineState) (beat : ℕ) (time t : ℚ) (f : ℝ) :
    AudioEvent.bass t f ∉ leadEvents s beat time := by
  simp only [leadEvents]
  split
  · split <;> simp
  · split <;> simp

/-- Any bass event among the events of one scheduled step comes from the bass
section of `scheduleNote`. -/
theorem bass_mem_bassEvents (s : EngineState) (beat : ℕ) (time t : ℚ) (f : ℝ)
    (h : AudioEvent.bass t f ∈ scheduleNote s beat time) :
    AudioEvent.bass t f ∈ bassEvents s beat time := by
  rcases hc : s.ctx with _ | c
  · rw [scheduleNote] at h
    simp [hc] at h
  · rw [scheduleNote] at h
    simp only [hc, List.mem_append] at h
    rcases h with ((((((h | h) | h) | h) | h) | h) | h)
    · split at h <;> simp at h
    · exact absurd h (bass_notin_kickEvents s beat time t f)
    · exact absurd h (bass_notin_snareEvents s beat time t f)
    · exact absurd h (bass_notin_hatEvents s beat time t f)
    · exact absurd h (bass_notin_chordEvents s beat time t f)
    · exact h
    · exact absurd h (bass_notin_leadEvents s beat time t f)

/-- C1 (amended): `start()` always resets the 16th-note step counter and the
global bar counter to zero and raises the playing flag, regardless of whether
the engine was already RUNNING — the reset is not restricted to a genuine
STOPPED-to-RUNNING transition. -/
theorem start_always_resets_transport (fuel : ℕ) (s : EngineState) :
    (start fuel s).1.current16thNote = 0 ∧
    (start fuel s).1.globalBar = 0 ∧
    (start fuel s).1.isPlaying = true := by
  unfold start scheduler
  rcases hc : s.ctx with _ | c <;>
    simp [hc, init, ctxTime, schedulerLoop_exit, scheduleAheadTime]

/-- C1 (counterexample to the claim as stated): on an engine that is already
RUNNING with step counter 7 and bar counter 5, calling `start()` is not a
no-op on the transport state — both counters are reset to zero. -/
theorem start_running_resets_counters_cex :
    runningEngine.isPlaying = true ∧
    runningEngine.current16thNote = 7 ∧
    runningEngine.globalBar = 5 ∧
    (start 1 runningEngine).1.current16thNote = 0 ∧
    (start 1 runningEngine).1.globalBar = 0 := by
  refine ⟨rfl, rfl, rfl, ?_, ?_⟩ <;>
    simp [start, scheduler, runningEngine, readyEngine, freshEngine, mkEngine,
      init, ctxTime, schedulerLoop_exit, scheduleAheadTime]

/-- C8: form selection is a pure function of the complexity tier with hard
thresholds 0.3 and 0.6: below 0.3 the all-A four-step form, above 0.6 the
eight-step form, and everything else — including exactly 0.3 and exactly
0.6 — the middle-tier A-A-B-A form. -/
theorem form_by_complexity_thresholds (p : SonicParameters) (rng : ℕ → ℚ) :
    (generateComposition p rng).form =
      (if p.complexity < 0.3 then [0, 0, 0, 0]
       else if p.complexity > 0.6 then [0, 0, 1, 0, 0, 1, 1, 0]
       else [0, 0, 1, 0]) ∧
    (generateComposition { p with complexity := 0.3 } rng).form = [0, 0, 1, 0] ∧
    (generateComposition { p with complexity := 0.6 } rng).form = [0, 0, 1, 0] ∧
    (generateComposition { p with complexity := 0.29 } rng).form = [0, 0, 0, 0] ∧
    (generateComposition { p with complexity := 0.61 } rng).form =
      [0, 0, 1, 0, 0, 1, 1, 0] := by
  refine ⟨rfl, ?_, ?_, ?_, ?_⟩
  · rw [show (generateComposition { p with complexity := 0.3 } rng).form =
        selectForm 0.3 from rfl]
    norm_num [selectForm]
  · rw [show (generateComposition { p with complexity := 0.6 } rng).form =
        selectForm 0.6 from rfl]
    norm_num [selectForm]
  · rw [show (generateComposition { p with complexity := 0.29 } rng).form =
        selectForm 0.29 from rfl]
    norm_num [selectForm]
  · rw [show (generateComposition { p with complexity := 0.61 } rng).form =
        selectForm 0.61 from rfl]
    norm_num [selectForm]

/-- C9: before the signal graph exists (audio context null), note realization
emits nothing and a gesture update returns the state unchanged — both are
complete no-ops that never error. -/
theorem pre_start_noops (s : EngineState) (g : HandGestures) (beat : ℕ)
    (time : ℚ) (h : s.ctx = none) :
    scheduleNote s beat time = [] ∧ updateControlParams s g = s := by
  constructor
  · rw [scheduleNote]
    simp [h]
  · rw [updateControlParams]
    simp [h]

/-- C9 witness: on a freshly constructed engine (never started), a scheduled
step emits nothing and a gesture update leaves the state unchanged. -/
theorem pre_start_noops_witness :
    scheduleNote freshEngine 0 0 = [] ∧
    updateControlParams freshEngine invisibleFist = freshEngine :=
  pre_start_noops freshEngine invisibleFist 0 0 rfl

/-- C2 (amended): a gesture update with `visible = false` pushes no
parameter — filter cutoff/resonance and all gain/feedback targets keep their
pre-update values — but the gesture snapshot itself is stored verbatim (it is
not treated as a neutral default): on an initialized engine the update's only
effect is `currentGestures := g`. -/
theorem updateControlParams_invisible_no_push (s : EngineState)
    (g : HandGestures) (hvis : g.isVisible = false) :
    (updateControlParams s g).filterNode = s.filterNode ∧
    (updateControlParams s g).masterGain = s.masterGain ∧
    (updateControlParams s g).reverbGain = s.reverbGain ∧
    (updateControlParams s g).delayFeedback = s.delayFeedback ∧
    (∀ c fl d, s.ctx = some c → s.filterNode = some fl →
      s.distortionNode = some d →
      updateControlParams s g = { s with currentGestures := g }) := by
  have hmain : updateControlParams s g = s ∨
      updateControlParams s g = { s with currentGestures := g } := by
    rw [updateControlParams]
    rcases hc : s.ctx with _ | c
    · left
      simp [hc]
    · rcases hf : s.filterNode with _ | fl
      · left
        simp [hc, hf]
      · rcases hd : s.distortionNode with _ | d
        · left
          simp [hc, hf, hd]
        · right
          simp [hc, hf, hd, hvis]
  have hlast : ∀ c fl d, s.ctx = some c → s.filterNode = some fl →
      s.distortionNode = some d →
      updateControlParams s g = { s with currentGestures := g } := by
    intro c fl d hc hf hd
    rw [updateControlParams]
    simp [hc, hf, hd, hvis]
  refine ⟨?_, ?_, ?_, ?_, hlast⟩ <;> rcases hmain with hm | hm <;> rw [hm]

/-- C2 witness: on the initialized engine, an invisible-hand update leaves
filter and gain targets untouched and only stores the snapshot. -/
theorem updateControlParams_invisible_no_push_witness :
    (updateControlParams readyEngine invisibleFist).filterNode =
      readyEngine.filterNode ∧
    (updateControlParams readyEngine invisibleFist).masterGain =
      readyEngine.masterGain ∧
    (updateControlParams readyEngine invisibleFist).reverbGain =
      readyEngine.reverbGain ∧
    (updateControlParams readyEngine invisibleFist).delayFeedback =
      readyEngine.delayFeedback ∧
    (∀ c fl d, readyEngine.ctx = some c → readyEngine.filterNode = some fl →
      readyEngine.distortionNode = some d →
      updateControlParams readyEngine invisibleFist =
        { readyEngine with currentGestures := invisibleFist }) :=
  updateControlParams_invisible_no_push readyEngine invisibleFist rfl

/-- C2 (counterexample to the claim as stated): an update with
`visible = false` but `fist = true` does not leave the stored gesture
snapshot neutral — the fist flag is stored and subsequently suppresses the
kick in note realization, so the update is not neutral for later
note-realization decisions. -/
theorem updateControlParams_invisible_stores_gestures_cex :
    readyEngine.currentGestures.isFist = false ∧
    invisibleFist.isVisible = false ∧
    (updateControlParams readyEngine invisibleFist).currentGestures.isFist
      = true ∧
    kickEvents readyEngine 0 0 = [AudioEvent.kick 0 1.0 0.5] ∧
    kickEvents (updateControlParams readyEngine invisibleFist) 0 0 = [] := by
  exact ⟨rfl, rfl, rfl, rfl, rfl⟩

/-- C4: while running, intensity is recomputed on each bar wrap as
`min(1, bar/64)` of the new global bar count; that function is non-decreasing
in the bar count, is 0 at bar 0, and saturates at exactly 1 from bar 64 on,
including bar 128. -/
theorem intensity_formula (s : EngineState) (h : s.current16thNote = 15) :
    (nextNote s).globalBar = s.globalBar + 1 ∧
    (nextNote s).intensity = intensityOf ((nextNote s).globalBar) ∧
    Monotone intensityOf ∧
    intensityOf 0 = 0 ∧
    (∀ bar : ℕ, 64 ≤ bar → intensityOf bar = 1) ∧
    intensityOf 128 = 1 := by
  have hb : (nextNote s).globalBar = s.globalBar + 1 := by
    simp [nextNote, h]
  have hi : (nextNote s).intensity = intensityOf (s.globalBar + 1) := by
    simp [nextNote, h]
  refine ⟨hb, by rw [hi, hb], ?_, ?_, ?_, ?_⟩
  · intro a b hab
    unfold intensityOf
    gcongr
  · norm_num [intensityOf]
  · intro bar hbar
    have hc : (64 : ℚ) ≤ (bar : ℚ) := by exact_mod_cast hbar
    unfold intensityOf
    rw [min_eq_left]
    rw [le_div_iff₀ (by norm_num : (0 : ℚ) < 64)]
    linarith
  · norm_num [intensityOf]

/-- C4 witness: the wrap from the last step of bar 63 lands on bar 64 with
the saturated intensity formula. -/
theorem intensity_formula_witness :
    (nextNote barWrapEngine).globalBar = 64 ∧
    (nextNote barWrapEngine).intensity =
      intensityOf ((nextNote barWrapEngine).globalBar) ∧
    Monotone intensityOf ∧
    intensityOf 0 = 0 ∧
    (∀ bar : ℕ, 64 ≤ bar → intensityOf bar = 1) ∧
    intensityOf 128 = 1 :=
  intensity_formula barWrapEngine rfl

/-- The eight-step form holds section B exactly at positions 2, 5 and 6. -/
theorem complexForm_getD (k : ℕ) (hk : k < 8) :
    ([0, 0, 1, 0, 0, 1, 1, 0] : List ℕ).getD k 0 = 1 ↔
      k = 2 ∨ k = 5 ∨ k = 6 := by
  interval_cases k <;> decide

/-- C5: on every bar wrap the active section is recomputed as
`form[(bar / 4) mod form.length]`; for the eight-entry complexity-0.8 form,
the 4-bar segments whose section is B begin exactly at bars 8, 20 and 24 of
each 32-bar cycle (so the section is B precisely during bars 8–11 and
20–27 of the cycle). -/
theorem section_recompute_and_B_segments (s : EngineState)
    (h : s.current16thNote = 15) :
    (nextNote s).activeSectionIdx =
      s.form.getD (((s.globalBar + 1) / 4) % s.form.length) 0 ∧
    selectForm 0.8 = [0, 0, 1, 0, 0, 1, 1, 0] ∧
    (∀ bar : ℕ, bar % 4 = 0 →
      ((selectForm 0.8).getD ((bar / 4) % (selectForm 0.8).length) 0 = 1 ↔
        bar % 32 = 8 ∨ bar % 32 = 20 ∨ bar % 32 = 24)) ∧
    (∀ bar : ℕ,
      ((selectForm 0.8).getD ((bar / 4) % (selectForm 0.8).length) 0 = 1 ↔
        (8 ≤ bar % 32 ∧ bar % 32 ≤ 11) ∨
          (20 ≤ bar % 32 ∧ bar % 32 ≤ 27))) := by
  have hf : selectForm (0.8 : ℚ) = [0, 0, 1, 0, 0, 1, 1, 0] := by
    norm_num [selectForm]
  refine ⟨by simp [nextNote, h], hf, ?_, ?_⟩
  · intro bar h4
    rw [hf, show ([0, 0, 1, 0, 0, 1, 1, 0] : List ℕ).length = 8 from rfl,
      complexForm_getD _ (Nat.mod_lt _ (by norm_num))]
    omega
  · intro bar
    rw [hf, show ([0, 0, 1, 0, 0, 1, 1, 0] : List ℕ).length = 8 from rfl,
      complexForm_getD _ (Nat.mod_lt _ (by norm_num))]
    omega

/-- C5 witness: instantiated at the engine wrapping onto bar 64. -/
theorem section_recompute_and_B_segments_witness :
    (nextNote barWrapEngine).activeSectionIdx =
      barWrapEngine.form.getD
        (((barWrapEngine.globalBar + 1) / 4) % barWrapEngine.form.length) 0 ∧
    selectForm 0.8 = [0, 0, 1, 0, 0, 1, 1, 0] ∧
    (∀ bar : ℕ, bar % 4 = 0 →
      ((selectForm 0.8).getD ((bar / 4) % (selectForm 0.8).length) 0 = 1 ↔
        bar % 32 = 8 ∨ bar % 32 = 20 ∨ bar % 32 = 24)) ∧
    (∀ bar : ℕ,
      ((selectForm 0.8).getD ((bar / 4) % (selectForm 0.8).length) 0 = 1 ↔
        (8 ≤ bar % 32 ∧ bar % 32 ≤ 11) ∨
          (20 ≤ bar % 32 ∧ bar % 32 ≤ 27))) :=
  section_recompute_and_B_segments barWrapEngine rfl

/-- C3: for every mood parameter record and every random source with draws in
`[0, 1)`, composition generation succeeds and is well-formed: the form indexes
only into the two-entry sections array, both 16-step patterns have exactly 16
slots, the scale has 5–7 entries, and the two picked progressions really are
members of the style's pools (so the random indexing never leaves the
table). -/
theorem generateComposition_wellformed (p : SonicParameters) (rng : ℕ → ℚ)
    (hrng : ∀ n, 0 ≤ rng n ∧ rng n < 1) :
    (∀ i ∈ (generateComposition p rng).form,
      i < (generateComposition p rng).sections.length) ∧
    (generateComposition p rng).sections.length = 2 ∧
    (generateComposition p rng).melodyPattern.length = 16 ∧
    (generateComposition p rng).bassPattern.length = 16 ∧
    5 ≤ (generateComposition p rng).scale.length ∧
    (generateComposition p rng).scale.length ≤ 7 ∧
    (generateComposition p rng).sections.getD 0 [] ∈ (CHORD_POOLS p.style).A ∧
    (generateComposition p rng).sections.getD 1 [] ∈ (CHORD_POOLS p.style).B := by
  have hsecs : (generateComposition p rng).sections =
      [(pickProg rng 0 (CHORD_POOLS p.style).A).1,
       (pickProg rng (pickProg rng 0 (CHORD_POOLS p.style).A).2
         (CHORD_POOLS p.style).B).1] := rfl
  have hform : (generateComposition p rng).form = selectForm p.complexity := rfl
  have hscale : (generateComposition p rng).scale = selectScale p.style := rfl
  have hmel : (generateComposition p rng).melodyPattern =
      (genList (melodyStep p.style p.complexity rng) 0 16
        (pickProg rng (pickProg rng 0 (CHORD_POOLS p.style).A).2
          (CHORD_POOLS p.style).B).2).1 := rfl
  have hbassEq : (generateComposition p rng).bassPattern =
      (if p.style = .ambient then
        (genList (bassStep p.style rng) 0 16
          (genList (melodyStep p.style p.complexity rng) 0 16
            (pickProg rng (pickProg rng 0 (CHORD_POOLS p.style).A).2
              (CHORD_POOLS p.style).B).2).2).1
       else
        (genList (bassStep p.style rng) 0 16
          (genList (melodyStep p.style p.complexity rng) 0 16
            (pickProg rng (pickProg rng 0 (CHORD_POOLS p.style).A).2
              (CHORD_POOLS p.style).B).2).2).1.set 0 (some 0)) := rfl
  refine ⟨?_, by rw [hsecs]; rfl, ?_, ?_, ?_, ?_, ?_, ?_⟩
  · intro i hi
    rw [hsecs]
    rw [hform] at hi
    have h2 := selectForm_entries p.complexity i hi
    simpa using h2
  · rw [hmel, genList_length]
  · rw [hbassEq]
    split
    · rw [genList_length]
    · rw [List.length_set, genList_length]
  · rw [hscale]
    cases h : p.style <;> decide
  · rw [hscale]
    cases h : p.style <;> decide
  · rw [hsecs]
    simp only [List.getD_cons_zero]
    exact pickProg_mem rng 0 _ (hrng 0).1 (hrng 0).2 (chordPools_nonempty p.style).1
  · rw [hsecs]
    simp only [List.getD_cons_succ, List.getD_cons_zero]
    exact pickProg_mem rng _ _ (hrng _).1 (hrng _).2 (chordPools_nonempty p.style).2

/-- C3 witness: the well-formedness conclusion instantiated at the fallback
parameters and the constant-1/2 random stream. -/
theorem generateComposition_wellformed_witness :
    (∀ i ∈ (generateComposition defaultParams halfRng).form,
      i < (generateComposition defaultParams halfRng).sections.length) ∧
    (generateComposition defaultParams halfRng).sections.length = 2 ∧
    (generateComposition defaultParams halfRng).melodyPattern.length = 16 ∧
    (generateComposition defaultParams halfRng).bassPattern.length = 16 ∧
    5 ≤ (generateComposition defaultParams halfRng).scale.length ∧
    (generateComposition defaultParams halfRng).scale.length ≤ 7 ∧
    (generateComposition defaultParams halfRng).sections.getD 0 [] ∈
      (CHORD_POOLS defaultParams.style).A ∧
    (generateComposition defaultParams halfRng).sections.getD 1 [] ∈
      (CHORD_POOLS defaultParams.style).B :=
  generateComposition_wellformed defaultParams halfRng
    (fun _ => by norm_num [halfRng])

/-- C10: every non-empty slot the bass-pattern generator ever produces holds
exactly the degree 0; consequently, through the root-substitution rule of
note realization, every bass event emitted while such a pattern is installed
sounds the current chord root's frequency. -/
theorem bassPattern_slots_alwaysRoot (p : SonicParameters) (rng : ℕ → ℚ) :
    (∀ v ∈ (generateComposition p rng).bassPattern, v = none ∨ v = some 0) ∧
    (∀ (s : EngineState) (beat : ℕ) (time t : ℚ) (f : ℝ),
      s.bassPattern = (generateComposition p rng).bassPattern →
      AudioEvent.bass t f ∈ scheduleNote s beat time →
      f = getFreq s.scale s.params.baseNoteFrequency
            (s.currentChordSequence.getD (s.globalBar % 4) 0) 0) := by
  refine ⟨generated_bassPattern_slots p rng, ?_⟩
  intro s beat time t f hbp hmem
  have hb := bass_mem_bassEvents s beat time t f hmem
  rw [bassEvents] at hb
  split at hb
  · rcases hslot : s.bassPattern.getD beat none with _ | v
    · rw [hslot] at hb
      simp at hb
    · rw [hslot] at hb
      have hv0 : v = 0 := by
        by_cases hlt : beat < s.bassPattern.length
        · have h1 : s.bassPattern.getD beat none = s.bassPattern[beat] :=
            List.getD_eq_getElem _ _ hlt
          rw [h1] at hslot
          have hm : some v ∈ s.bassPattern := hslot ▸ List.getElem_mem hlt
          rw [hbp] at hm
          rcases generated_bassPattern_slots p rng _ hm with h | h
          · exact absurd h (by simp)
          · exact Option.some.inj h
        · rw [List.getD_eq_default _ _ (le_of_not_lt hlt)] at hslot
          exact absurd hslot (by simp)
      subst hv0
      simp only [if_pos rfl, List.mem_singleton, AudioEvent.bass.injEq] at hb
      exact hb.2
  · simp at hb

/-- C6: whenever a step's bass slot is present and holds the stored value 0,
and the bass is not suppressed (no fist, no breakdown), the scheduled bass
note's frequency is `getFreq` of the current chord's root degree
`currentChordSequence[bar mod 4]`, not of literal scale degree 0 — and it is
the only bass frequency scheduled at that step. -/
theorem bassRoot_substitution (s : EngineState) (c : AudioCtx) (beat : ℕ)
    (time : ℚ) (hctx : s.ctx = some c)
    (hfist : s.currentGestures.isFist = false)
    (hbk : ¬ isBreakdown s)
    (hslot : s.bassPattern.getD beat none = some 0) :
    AudioEvent.bass time
        (getFreq s.scale s.params.baseNoteFrequency
          (s.currentChordSequence.getD (s.globalBar % 4) 0) 0) ∈
      scheduleNote s beat time ∧
    (∀ t f, AudioEvent.bass t f ∈ scheduleNote s beat time →
      f = getFreq s.scale s.params.baseNoteFrequency
            (s.currentChordSequence.getD (s.globalBar % 4) 0) 0) := by
  have hbe : bassEvents s beat time =
      [AudioEvent.bass time
        (getFreq s.scale s.params.baseNoteFrequency
          (s.currentChordSequence.getD (s.globalBar % 4) 0) 0)] := by
    rw [bassEvents, if_pos ⟨hfist, hbk⟩, hslot]
    simp
  constructor
  · rw [scheduleNote]
    simp only [hctx, List.mem_append]
    refine Or.inl (Or.inr ?_)
    rw [hbe]
    exact List.mem_singleton.mpr rfl
  · intro t f hmem
    have hb := bass_mem_bassEvents s beat time t f hmem
    rw [hbe] at hb
    simp only [List.mem_singleton, AudioEvent.bass.injEq] at hb
    exact hb.2

/-- C6 witness: on the playing engine in bar 1 (chord root -2), step 1's bass
slot holds 0 and the emitted bass frequency is the chord root's. -/
theorem bassRoot_substitution_witness :
    AudioEvent.bass 0
        (getFreq playingEngine.scale playingEngine.params.baseNoteFrequency
          (playingEngine.currentChordSequence.getD (playingEngine.globalBar % 4) 0) 0) ∈
      scheduleNote playingEngine 1 0 ∧
    (∀ t f, AudioEvent.bass t f ∈ scheduleNote playingEngine 1 0 →
      f = getFreq playingEngine.scale playingEngine.params.baseNoteFrequency
            (playingEngine.currentChordSequence.getD (playingEngine.globalBar % 4) 0) 0) :=
  bassRoot_substitution playingEngine { currentTime := 0 } 1 0 rfl rfl
    (by decide) (by decide)

/-- Equal-tempered anchoring: converting through the base frequency's MIDI
number collapses to multiplying the base frequency by `2 ^ (semitones/12)`. -/
theorem freq_conversion (b : ℝ) (hb : 0 < b) (S : ℝ) :
    440 * (2 : ℝ) ^ ((69 + 12 * Real.logb 2 (b / 440) + S - 69) / 12) =
      b * (2 : ℝ) ^ (S / 12) := by
  have h1 : (69 + 12 * Real.logb 2 (b / 440) + S - 69) / 12 =
      Real.logb 2 (b / 440) + S / 12 := by ring
  rw [h1, Real.rpow_add (by norm_num : (0 : ℝ) < 2),
    Real.rpow_logb (by norm_num) (by norm_num) (by positivity)]
  rw [← mul_assoc, mul_comm (440 : ℝ) (b / 440),
    div_mul_cancel₀ b (by norm_num : (440 : ℝ) ≠ 0)]

/-- C7: for every integer scale degree (negative and multi-octave included)
and every 5-to-7-entry scale, the normalized index `((d % len) + len) % len`
computed by `getFreq` is within bounds and equals the mathematical
`d mod len`, and the returned frequency is the equal-tempered conversion of
`semitone = scale[d mod len] + 12 * floor(d/len)` (plus the octave offset)
anchored at the configured base frequency. -/
theorem getFreq_safe_and_tempered (scale : List ℤ) (base : ℚ) (d oct : ℤ)
    (h5 : 5 ≤ scale.length) (h7 : scale.length ≤ 7) (hbase : 0 < base) :
    (0 ≤ (d.tmod (scale.length : ℤ) + (scale.length : ℤ)).tmod (scale.length : ℤ) ∧
      (d.tmod (scale.length : ℤ) + (scale.length : ℤ)).tmod (scale.length : ℤ) <
        (scale.length : ℤ) ∧
      (d.tmod (scale.length : ℤ) + (scale.length : ℤ)).tmod (scale.length : ℤ) =
        d % (scale.length : ℤ)) ∧
    getFreq scale base d oct =
      (base : ℝ) * (2 : ℝ) ^
        ((((scale.getD ((d % (scale.length : ℤ)).toNat) 0 +
            12 * ⌊(d : ℚ) / ((scale.length : ℤ) : ℚ)⌋ + 12 * oct : ℤ) : ℝ)) / 12) := by
  have hlen : (0 : ℤ) < (scale.length : ℤ) := by
    have h0 : 0 < scale.length := lt_of_lt_of_le (by norm_num) h5
    exact_mod_cast h0
  have hnorm := tmod_normalize_eq_emod d (scale.length : ℤ) hlen
  have hmod0 : 0 ≤ d % (scale.length : ℤ) := Int.emod_nonneg d (by omega)
  have hmodlt : d % (scale.length : ℤ) < (scale.length : ℤ) :=
    Int.emod_lt_of_pos d hlen
  refine ⟨⟨by rw [hnorm]; exact hmod0, by rw [hnorm]; exact hmodlt, hnorm⟩, ?_⟩
  simp only [getFreq]
  rw [hnorm]
  rw [freq_conversion ((base : ℚ) : ℝ) (by exact_mod_cast hbase)]
  congr 1
  push_cast
  ring_nf

/-- C7 witness: degree -3 against the phrygian scale anchored at 55 Hz. -/
theorem getFreq_safe_and_tempered_witness :
    (0 ≤ ((-3 : ℤ).tmod (SCALES_phrygian.length : ℤ) +
        (SCALES_phrygian.length : ℤ)).tmod (SCALES_phrygian.length : ℤ) ∧
      ((-3 : ℤ).tmod (SCALES_phrygian.length : ℤ) +
        (SCALES_phrygian.length : ℤ)).tmod (SCALES_phrygian.length : ℤ) <
        (SCALES_phrygian.length : ℤ) ∧
      ((-3 : ℤ).tmod (SCALES_phrygian.length : ℤ) +
        (SCALES_phrygian.length : ℤ)).tmod (SCALES_phrygian.length : ℤ) =
        (-3 : ℤ) % (SCALES_phrygian.length : ℤ)) ∧
    getFreq SCALES_phrygian 55 (-3) 0 =
      ((55 : ℚ) : ℝ) * (2 : ℝ) ^
        ((((SCALES_phrygian.getD (((-3 : ℤ) % (SCALES_phrygian.length : ℤ)).toNat) 0 +
            12 * ⌊((-3 : ℤ) : ℚ) / ((SCALES_phrygian.length : ℤ) : ℚ)⌋ +
            12 * 0 : ℤ) : ℝ)) / 12) :=
  getFreq_safe_and_tempered SCALES_phrygian 55 (-3) 0
    (by norm_num [SCALES_phrygian]) (by norm_num [SCALES_phrygian]) (by norm_num)

/-- C10 witness: the slot invariant and the chord-root consequence applied to
the concrete playing engine (its bass event at step 1 of bar 1). -/
theorem bassPattern_slots_alwaysRoot_witness :
    ((some 0 : Option ℤ) = none ∨ (some 0 : Option ℤ) = some 0) ∧
    getFreq playingEngine.scale playingEngine.params.baseNoteFrequency
        (playingEngine.currentChordSequence.getD (playingEngine.globalBar % 4) 0) 0 =
      getFreq playingEngine.scale playingEngine.params.baseNoteFrequency
        (playingEngine.currentChordSequence.getD (playingEngine.globalBar % 4) 0) 0 := by
  constructor
  · exact (bassPattern_slots_alwaysRoot defaultParams halfRng).1 (some 0) (by decide)
  · have hcond : playingEngine.currentGestures.isFist = false ∧
        ¬ isBreakdown playingEngine := ⟨rfl, by decide⟩
    have hslot2 : playingEngine.bassPattern.getD 1 none = some 0 := by decide
    have hbe : bassEvents playingEngine 1 0 =
        [AudioEvent.bass 0
          (getFreq playingEngine.scale playingEngine.params.baseNoteFrequency
            (playingEngine.currentChordSequence.getD (playingEngine.globalBar % 4) 0) 0)] := by
      rw [bassEvents, if_pos hcond, hslot2]
      simp
    have hmem : AudioEvent.bass 0
        (getFreq playingEngine.scale playingEngine.params.baseNoteFrequency
          (playingEngine.currentChordSequence.getD (playingEngine.globalBar % 4) 0) 0) ∈
        scheduleNote playingEngine 1 0 := by
      rw [scheduleNote]
      simp only [show playingEngine.ctx = some { currentTime := 0 } from rfl,
        List.mem_append]
      refine Or.inl (Or.inr ?_)
      rw [hbe]
      exact List.mem_singleton.mpr rfl
    exact (bassPattern_slots_alwaysRoot defaultParams halfRng).2 playingEngine 1 0 0 _
      rfl hmem

end Sound
